import Mathlib

/-!
Shallow embedding of the crank training-orchestration code
(`crank/net/trainer/trainer_cyclegan.py` and `crank/bin/train.py`),
together with theorems checking the specification's claims about it.

Tensors are modelled as lists of per-frame channel rows of rationals,
tagged with a flag recording whether backpropagation from the tensor
reaches a non-detached generator parameter.  Loss accumulators are
association lists from string keys to such tagged scalars, mirroring the
Python dict.  External collaborators that the two given files call but do
not define (the discriminator network with `get_D_inputs`, the criterion
registry, `cycle_forward`, the vqvae loss functions) are abstract
function parameters of the trainer record, as the spec treats them as
black boxes.
-/

namespace Crank

/-- Branch identifier: the `"org"` / `"cv"` decoded branches of a cycle. -/
inductive Branch
  | org
  | cv
deriving DecidableEq

/-- Rendering of a branch as in the Python f-strings. -/
def Branch.str : Branch → String
  | .org => "org"
  | .cv => "cv"

/-- Which fake sample `random.choice(["org_fake", "cv_fake"])` picked. -/
inductive FakeKind
  | org_fake
  | cv_fake
deriving DecidableEq

/-- A (batch-and-time-flattened) frames-by-channels tensor, tagged with
whether backpropagation from it reaches non-detached generator parameters. -/
structure Tens where
  frames : List (List ℚ)
  gradG : Bool
deriving DecidableEq

/-- Embeds `torch.Tensor.detach`: same values, gradient flow to G severed. -/
def Tens.detach (t : Tens) : Tens := ⟨t.frames, false⟩

/-- The entries of one training batch used by the two trainer methods. -/
structure Batch where
  in_feats : List (List ℚ)
  decoder_mask : List Bool
  cycle_decoder_mask : List Bool
  org_h : List ℕ
  cv_h : List ℕ
deriving DecidableEq

/-- The per-branch speaker-label sequence of the batch (the `org_h` or
`cv_h` entry). -/
def Batch.h (b : Batch) : Branch → List ℕ
  | .org => b.org_h
  | .cv => b.cv_h

/-- One branch record of a cycle output (only the `"decoded"` entry is
consumed by the code under study). -/
structure BranchOut where
  decoded : Tens
deriving DecidableEq

/-- One element of `cycle_forward`'s output: the `{"org": …, "cv": …}` pair. -/
structure CycOut where
  org : BranchOut
  cv : BranchOut
deriving DecidableEq

/-- Branch projection of a cycle output. -/
def CycOut.branch (o : CycOut) : Branch → BranchOut
  | .org => o.org
  | .cv => o.cv

/-- A scalar loss value tagged with whether backpropagating it reaches
non-detached generator parameters. -/
structure GVal where
  v : ℚ
  g : Bool
deriving DecidableEq

/-- Addition of loss scalars; gradient reachability is the union. -/
def gadd (a b : GVal) : GVal := ⟨a.v + b.v, a.g || b.g⟩

/-- Weighting a loss scalar by a configured alpha. -/
def gscale (c : ℚ) (a : GVal) : GVal := ⟨c * a.v, a.g⟩

/-- The loss accumulator: the Python dict `loss`, as an association list
where the most recent binding of a key shadows earlier ones. -/
abbrev Acc := List (String × GVal)

/-- Dict lookup (`loss[k]`); absent keys read as zero here, and every
theorem below only reads keys that are present. -/
def dget (l : Acc) (k : String) : GVal :=
  match l with
  | [] => ⟨0, false⟩
  | (k₀, v) :: rest => if k₀ = k then v else dget rest k

/-- Dict update (`loss[k] = v`). -/
def dset (l : Acc) (k : String) (v : GVal) : Acc := (k, v) :: l

/-- The distinct keys present in an accumulator. -/
def dkeys (l : Acc) : List String := (l.map Prod.fst).dedup

/-- Configuration entries consumed by the two trainer methods. -/
structure TConf where
  n_cycles : ℕ
  acgan_flag : Bool
  use_real_only_acgan : Bool
  use_spkradv_training : Bool
  n_spkrs : ℕ
  alpha_adv : ℚ
  alpha_acgan : ℚ
  alpha_fake : ℚ
  alpha_real : ℚ

/-- Modelled from the spec: `criterion["mse"]` from the loss registry
(constructed outside the two given files) — squared error against a
constant target, averaged over the selected elements. -/
def mse (xs : List ℚ) (t : ℚ) : ℚ := ((xs.map fun x => (x - t) ^ 2).sum) / xs.length

/-- Embeds `Tensor.masked_select` on an already channel-flattened sequence. -/
def maskSel (xs : List ℚ) (m : List Bool) : List ℚ :=
  ((xs.zip m).filter fun p => p.2).map fun p => p.1

/-- Embeds `Tensor.masked_select` on frame rows: keep the rows whose mask bit is
true and flatten the surviving channels. -/
def maskSelF (fr : List (List ℚ)) (m : List Bool) : List ℚ :=
  (((fr.zip m).filter fun p => p.2).map fun p => p.1).flatten

/-- First half of `torch.split(x, [1, n_spkrs], dim=2)`: the validity channel. -/
def splitVal (fr : List (List ℚ)) : List ℚ := fr.map fun r => r.headD 0

/-- Second half of `torch.split(x, [1, n_spkrs], dim=2)`: the classifier channels. -/
def splitCls (fr : List (List ℚ)) : List (List ℚ) := fr.map fun r => r.drop 1

/-- The trainer state: configuration, the generator-freeze flag, and the
external collaborators as black-box functions. -/
structure Trainer where
  conf : TConf
  stop_generator : Bool
  /-- Modelled from the spec: `get_D_inputs` (conditioning concatenation,
  defined in the parent LSGAN trainer, outside the given files) composed
  with the discriminator `model["D"]` and the transposes of
  `return_sample`.  The string argument is the conditioning label passed
  to `get_D_inputs`.  Autograd reachability of generator parameters is
  carried unchanged on the `Tens` wrapper by `dApply`. -/
  Dnet : Batch → List (List ℚ) → String → List (List ℚ)
  /-- Modelled from the spec: `criterion["ce"]`, the cross-entropy of the
  loss registry, applied to classifier rows and a label sequence. -/
  ceF : List (List ℚ) → List ℕ → ℚ
  /-- Modelled from the spec: `model["G"].cycle_forward` producing one
  `{"org", "cv"}` record per cycle index. -/
  cycle_forward : Batch → ℕ → CycOut
  /-- Modelled from the spec: `calculate_vqvae_loss` of the parent trainer. -/
  vqvae_loss : Batch → BranchOut → Acc → Acc
  /-- Modelled from the spec: `calculate_cyclevqvae_loss` of the parent trainer. -/
  cyclevqvae_loss : Batch → (ℕ → CycOut) → Acc → Acc
  /-- Modelled from the spec: `calculate_spkradv_loss` of the parent trainer
  (it receives the phase string). -/
  spkradv_loss : Batch → BranchOut → Acc → String → Acc

/-- Embeds `return_sample(get_D_inputs(batch, x, label))`: run the discriminator on
a tensor under a conditioning label; generator-gradient reachability of the
output equals that of the input. -/
def dApply (tr : Trainer) (b : Batch) (t : Tens) (label : String) : Tens :=
  ⟨tr.Dnet b t.frames label, t.gradG⟩

/-- The per-cycle, per-branch label: the cycle index rendered in decimal,
then `cyc_`, then the branch name. -/
def advLbl (c : ℕ) (io : Branch) : String := Nat.repr c ++ "cyc_" ++ io.str

/-- The adversarial-term key: the `D_adv_` prefix followed by the label. -/
def advKey (c : ℕ) (io : Branch) : String := "D_adv_" ++ advLbl c io

/-- The acgan cross-entropy key: the `D_acgan_adv_` prefix followed by the label. -/
def acganAdvKey (c : ℕ) (io : Branch) : String := "D_acgan_adv_" ++ advLbl c io

/-- One `(c, io)` iteration of the loop body of
`CycleGANTrainer.calculate_cycleadv_loss` (trainer_cyclegan.py lines
100-122): run the discriminator on `outputs[c][io]["decoded"]` with the
`"cv"` label; with `acgan_flag` split off the classifier channels, mask
the validity channel by `decoder_mask`, and add the cross-entropy term;
in both cases add the ones-target squared error weighted by
`alpha["adv"]` into `loss["G"]`. -/
def advStep (tr : Trainer) (b : Batch) (outs : ℕ → CycOut) (c : ℕ) (io : Branch)
    (loss : Acc) : Acc :=
  let dOut : Tens := dApply tr b ((outs c).branch io).decoded "cv"
  if tr.conf.acgan_flag then
    let dVal := maskSel (splitVal dOut.frames) b.decoder_mask
    let ceL : GVal := ⟨tr.ceF (splitCls dOut.frames) (b.h io), dOut.gradG⟩
    let loss := dset loss (acganAdvKey c io) ceL
    let loss := dset loss "G" (gadd (dget loss "G") (gscale tr.conf.alpha_acgan ceL))
    let advL : GVal := ⟨mse dVal 1, dOut.gradG⟩
    let loss := dset loss (advKey c io) advL
    dset loss "G" (gadd (dget loss "G") (gscale tr.conf.alpha_adv advL))
  else
    let advL : GVal := ⟨mse dOut.frames.flatten 1, dOut.gradG⟩
    let loss := dset loss (advKey c io) advL
    dset loss "G" (gadd (dget loss "G") (gscale tr.conf.alpha_adv advL))

/-- Embeds `CycleGANTrainer.calculate_cycleadv_loss` (lines 95-123): the double
loop over cycles and branches. -/
def calculate_cycleadv_loss (tr : Trainer) (b : Batch) (outs : ℕ → CycOut)
    (loss : Acc) : Acc :=
  (List.range tr.conf.n_cycles).foldl
    (fun l c => [Branch.org, Branch.cv].foldl (fun l₂ io => advStep tr b outs c io l₂) l)
    loss

/-- The three per-cycle sample set names of
`calculate_cycle_discriminator_loss`, in dict insertion order. -/
inductive SampleKey
  | real
  | org_fake
  | cv_fake
deriving DecidableEq

/-- Rendering of a sample key as in the Python f-strings. -/
def SampleKey.str : SampleKey → String
  | .real => "real"
  | .org_fake => "org_fake"
  | .cv_fake => "cv_fake"

/-- Map the random fake choice to its sample key. -/
def FakeKind.sample : FakeKind → SampleKey
  | .org_fake => .org_fake
  | .cv_fake => .cv_fake

/-- The per-cycle label: the cycle index rendered in decimal, then `cyc`. -/
def cycLbl (c : ℕ) : String := Nat.repr c ++ "cyc"

/-- The per-sample cross-entropy key: `D_ce_`, the sample name, an
underscore, the cycle label. -/
def ceKey (k : SampleKey) (c : ℕ) : String := "D_ce_" ++ (k.str ++ ("_" ++ cycLbl c))

/-- The real-sample loss key: the `D_real_` prefix and the cycle label. -/
def realKey (c : ℕ) : String := "D_real_" ++ cycLbl c

/-- The fake-sample loss key: the `D_fake_` prefix and the cycle label. -/
def fakeKey (c : ℕ) : String := "D_fake_" ++ cycLbl c

/-- The `sample` dict built at lines 131-142: the discriminator run on the
real input features (label `"org"`), on the detached first-cycle
`"org"`-branch decode (label `"org"`), and on the detached first-cycle
`"cv"`-branch decode (label `"cv"`).  Note the source indexes `outputs[0]`
for every cycle of the loop. -/
def discSample (tr : Trainer) (b : Batch) (outs : ℕ → CycOut) : SampleKey → Tens
  | .real => dApply tr b ⟨b.in_feats, false⟩ "org"
  | .org_fake => dApply tr b ((outs 0).org.decoded.detach) "org"
  | .cv_fake => dApply tr b ((outs 0).cv.decoded.detach) "cv"

/-- The sample tensor after the acgan branch: when `acgan_flag` is set the loop
at lines 144-152 overwrites each `sample[k]` with its validity channel. -/
def discSamplePost (tr : Trainer) (b : Batch) (outs : ℕ → CycOut) (k : SampleKey) : Tens :=
  let s := discSample tr b outs k
  if tr.conf.acgan_flag then ⟨s.frames.map fun r => [r.headD 0], s.gradG⟩ else s

/-- The cross-entropy term of lines 153-156 for one sample key: labels are
`org_h` for `"real"`/`"org_fake"` and `cv_h` for `"cv_fake"`. -/
def ceVal (tr : Trainer) (b : Batch) (outs : ℕ → CycOut) (k : SampleKey) : GVal :=
  let h := match k with
    | .real => b.org_h
    | .org_fake => b.org_h
    | .cv_fake => b.cv_h
  let s := discSample tr b outs k
  ⟨tr.ceF (splitCls s.frames) h, s.gradG⟩

/-- One `k` iteration of the acgan loop at lines 145-160: write the
cross-entropy term under its per-sample key, and add it into the `D` total
weighted by `alpha["acgan"]` unless `use_real_only_acgan` excludes the
`"org_fake"` term. -/
def discCeStep (tr : Trainer) (b : Batch) (outs : ℕ → CycOut) (c : ℕ) (k : SampleKey)
    (loss : Acc) : Acc :=
  let ceL := ceVal tr b outs k
  let loss := dset loss (ceKey k c) ceL
  if tr.conf.use_real_only_acgan ∧ k = SampleKey.org_fake then loss
  else dset loss "D" (gadd (dget loss "D") (gscale tr.conf.alpha_acgan ceL))

/-- The real-sample squared-error term of lines 162-165:
`sample["real"].masked_select(batch["decoder_mask"])` against ones. -/
def realVal (tr : Trainer) (b : Batch) (outs : ℕ → CycOut) : GVal :=
  let s := discSamplePost tr b outs SampleKey.real
  ⟨mse (maskSelF s.frames b.decoder_mask) 1, s.gradG⟩

/-- The fake-sample squared-error term of lines 166-174: the randomly
chosen branch's sample, masked by `cycle_decoder_mask` for `"org_fake"`
and by `decoder_mask` for `"cv_fake"`, against zeros. -/
def fakeVal (tr : Trainer) (b : Batch) (outs : ℕ → CycOut) (fk : FakeKind) : GVal :=
  let mask := match fk with
    | .org_fake => b.cycle_decoder_mask
    | .cv_fake => b.decoder_mask
  let s := discSamplePost tr b outs fk.sample
  ⟨mse (maskSelF s.frames mask) 0, s.gradG⟩

/-- One cycle iteration of `calculate_cycle_discriminator_loss` (lines
129-178).  `choice c` is the value `random.choice(["org_fake", "cv_fake"])`
returned at that cycle's iteration — the randomness source is passed in
explicitly. -/
def discCycleStep (tr : Trainer) (b : Batch) (outs : ℕ → CycOut) (choice : ℕ → FakeKind)
    (c : ℕ) (loss : Acc) : Acc :=
  let loss := if tr.conf.acgan_flag then
      [SampleKey.real, SampleKey.org_fake, SampleKey.cv_fake].foldl
        (fun l k => discCeStep tr b outs c k l) loss
    else loss
  let realL := realVal tr b outs
  let loss := dset loss (realKey c) realL
  let fakeL := fakeVal tr b outs (choice c)
  let loss := dset loss (fakeKey c) fakeL
  dset loss "D"
    (gadd (dget loss "D")
      (gadd (gscale tr.conf.alpha_fake fakeL) (gscale tr.conf.alpha_real realL)))

/-- Embeds `CycleGANTrainer.calculate_cycle_discriminator_loss` (lines 125-179). -/
def calculate_cycle_discriminator_loss (tr : Trainer) (b : Batch) (outs : ℕ → CycOut)
    (choice : ℕ → FakeKind) (loss : Acc) : Acc :=
  (List.range tr.conf.n_cycles).foldl
    (fun l c => discCycleStep tr b outs choice c l) loss

/-- Embeds `CycleGANTrainer.update_G` (lines 52-76): the loss pipeline followed by
the gated `step_model(loss, model="G")`; the boolean records whether the
optimizer step was taken. -/
def update_G (tr : Trainer) (b : Batch) (loss : Acc) (phase : String) : Acc × Bool :=
  let outs := tr.cycle_forward b
  let loss := tr.vqvae_loss b (outs 0).org loss
  let loss := tr.cyclevqvae_loss b outs loss
  let loss := if tr.conf.use_spkradv_training then tr.spkradv_loss b (outs 0).org loss phase
    else loss
  let loss := calculate_cycleadv_loss tr b outs loss
  (loss, (phase == "train") && !tr.stop_generator)

/-- Embeds `CycleGANTrainer.update_D` (lines 78-93): the discriminator loss
followed by the gated `step_model(loss, model="D")`; the boolean records
whether the optimizer step was taken. -/
def update_D (tr : Trainer) (b : Batch) (loss : Acc) (phase : String)
    (choice : ℕ → FakeKind) : Acc × Bool :=
  let outs := tr.cycle_forward b
  let loss := calculate_cycle_discriminator_loss tr b outs choice loss
  (loss, phase == "train")

/-- The amount one cycle iteration of `calculate_cycle_discriminator_loss`
adds into `loss["D"]`: the acgan cross-entropy terms (the `"org_fake"` one
only when `use_real_only_acgan` is off), plus the weighted fake and real
squared errors. -/
def discContrib (tr : Trainer) (b : Batch) (outs : ℕ → CycOut) (choice : ℕ → FakeKind)
    (c : ℕ) : GVal :=
  gadd
    (if tr.conf.acgan_flag then
      gadd
        (gadd (gscale tr.conf.alpha_acgan (ceVal tr b outs SampleKey.real))
          (if tr.conf.use_real_only_acgan then ⟨0, false⟩
           else gscale tr.conf.alpha_acgan (ceVal tr b outs SampleKey.org_fake)))
        (gscale tr.conf.alpha_acgan (ceVal tr b outs SampleKey.cv_fake))
     else ⟨0, false⟩)
    (gadd (gscale tr.conf.alpha_fake (fakeVal tr b outs (choice c)))
      (gscale tr.conf.alpha_real (realVal tr b outs)))

/-! ## Concrete instances used by the concrete-input theorems -/

/-- A concrete trainer: the discriminator returns its input frames
unchanged, the cross-entropy sums its arguments, and the vqvae-family
losses leave the accumulator unchanged. -/
def exTrainer (cf : TConf) (outsFn : ℕ → CycOut) : Trainer where
  conf := cf
  stop_generator := false
  Dnet := fun _ fr _ => fr
  ceF := fun cls h => cls.flatten.sum + (h.sum : ℚ)
  cycle_forward := fun _ => outsFn
  vqvae_loss := fun _ _ l => l
  cyclevqvae_loss := fun _ _ l => l
  spkradv_loss := fun _ _ l _ => l

/-- A one-frame-per-branch cycle output with live (non-detached) decodes. -/
def exCyc (x y : ℚ) : CycOut := ⟨⟨⟨[[x]], true⟩⟩, ⟨⟨[[y]], true⟩⟩⟩

/-- A cycle output with explicit frame lists and live decodes. -/
def exCycF (xs ys : List (List ℚ)) : CycOut := ⟨⟨⟨xs, true⟩⟩, ⟨⟨ys, true⟩⟩⟩

/-- A single-frame batch whose cycle-decoder mask masks everything out. -/
def exBatch1 : Batch := ⟨[[1]], [true], [false], [0], [1]⟩

/-- A two-frame batch whose second decoder-mask entry is padding. -/
def exBatch2 : Batch := ⟨[[1], [2]], [true, false], [true, true], [0, 0], [1, 1]⟩

/-- Two cycles, no acgan, unit weights. -/
def exConf : TConf := ⟨2, false, false, false, 2, 1, 1, 1, 1⟩

/-- One cycle, acgan with `use_real_only_acgan`, unit weights. -/
def exConfA : TConf := ⟨1, true, true, false, 1, 1, 1, 1, 1⟩

/-- Cycle outputs whose first cycle decodes to `3` (org) and `2` (cv) and
whose later cycles decode to zero. -/
def exOutsA : ℕ → CycOut := fun c => if c = 0 then exCyc 3 2 else exCyc 0 0

/-- Same first cycle as `exOutsA`, different later cycles. -/
def exOutsB : ℕ → CycOut := fun c => if c = 0 then exCyc 3 2 else exCyc 9 9

/-- The concrete no-acgan trainer. -/
def exTrainerC : Trainer := exTrainer exConf exOutsA

/-- The concrete acgan trainer with `use_real_only_acgan`. -/
def exTrainerA : Trainer := exTrainer exConfA exOutsA

/-- One cycle, no acgan, unit weights. -/
def exConf1 : TConf := ⟨1, false, false, false, 2, 1, 1, 1, 1⟩

/-- Constant cycle outputs with two-frame decodes whose second frame is
padding under `exBatch2.decoder_mask`. -/
def exOutsC : ℕ → CycOut := fun _ => exCycF [[1], [0]] [[1], [7]]

/-- A per-cycle random-draw stream: `org_fake` at cycle 0, `cv_fake` later. -/
def chW : ℕ → FakeKind := fun c => if c = 0 then FakeKind.org_fake else FakeKind.cv_fake

/-- A draw stream agreeing with `chW` below index 5 and differing at 5. -/
def chW' : ℕ → FakeKind := fun c => if c = 5 then FakeKind.org_fake else chW c

/-! ## `crank/bin/train.py` -/

/-- Configuration entries consumed by the discriminator section of
`get_model` (train.py lines 93-131). -/
structure NetConf where
  trainer_type : String
  gan_type : String
  acgan_flag : Bool
  use_residual_network : Bool
  use_D_uv : Bool
  use_D_spkrcode : Bool
  use_spkr_embedding : Bool
  spkr_embedding_size : ℕ
  input_size : ℕ
  discriminator_kernel_size : ℕ
  n_discriminator_layers : ℕ
  n_discriminator_stacks : ℕ
  discriminator_dropout : ℚ
deriving DecidableEq

/-- The argument record handed to the discriminator constructor (the
constant keyword arguments `conv_channels=64` etc. are omitted); `plain`
keeps the `layers` argument exactly as the source builds it — a list of
strings, since Python's `n * [x]` is list repetition. -/
inductive DSpec
  | residual (in_channels out_channels kernel_size layers n_stacks : ℕ) (dropout : ℚ)
  | plain (in_channels out_channels kernel_size : ℕ) (layers : List String)
deriving DecidableEq

/-- The discriminator construction of `get_model` (lines 94-131), with
Python local-variable semantics for `output_channels`: it is bound only
inside the `gan_type == "lsgan"` branch, the `acgan_flag` branch reads and
increments it unconditionally, and reading it unbound raises
`UnboundLocalError`. -/
def build_discriminator (conf : NetConf) (spkr_size : ℕ) : Except String DSpec :=
  let input_channels := conf.input_size
  let input_channels := if conf.use_D_uv then input_channels + 1 else input_channels
  let input_channels :=
    if conf.use_D_spkrcode then
      if !conf.use_spkr_embedding then input_channels + spkr_size
      else input_channels + conf.spkr_embedding_size
    else input_channels
  let oc₀ : Option ℕ := if conf.gan_type = "lsgan" then some 1 else none
  let oc₁ : Except String (Option ℕ) :=
    if conf.acgan_flag then
      match oc₀ with
      | some v => Except.ok (some (v + spkr_size))
      | none => Except.error "UnboundLocalError: output_channels"
    else Except.ok oc₀
  match oc₁ with
  | Except.error e => Except.error e
  | Except.ok none => Except.error "UnboundLocalError: output_channels"
  | Except.ok (some output_channels) =>
    if conf.use_residual_network then
      Except.ok (DSpec.residual input_channels output_channels conf.discriminator_kernel_size
        (conf.n_discriminator_layers * conf.n_discriminator_stacks)
        conf.n_discriminator_stacks conf.discriminator_dropout)
    else
      Except.ok (DSpec.plain input_channels output_channels conf.discriminator_kernel_size
        (List.replicate conf.n_discriminator_layers "n_discriminator_stacks"))

/-- The discriminator part of `get_model`: the constructor runs only when
`trainer_type` is one of `"lsgan"`, `"cyclegan"`, `"stargan"`; otherwise no
`"D"` entry is added to the model collection. -/
def get_model_D (conf : NetConf) (spkr_size : ℕ) : Except String (Option DSpec) :=
  if conf.trainer_type = "lsgan" ∨ conf.trainer_type = "cyclegan" ∨
      conf.trainer_type = "stargan" then
    (build_discriminator conf spkr_size).map some
  else Except.ok none

/-- A persisted checkpoint record `{"model": {role: parameters}, "steps": n}`;
parameter states are abstracted to opaque tokens. -/
structure Checkpoint where
  model : List (String × ℕ)
  steps : ℤ
deriving DecidableEq

/-- Role lookup in a model collection or checkpoint record (`d[k]` /
`k in d.keys()`). -/
def lookupRole : List (String × ℕ) → String → Option ℕ
  | [], _ => none
  | p :: rest, k => if p.1 = k then some p.2 else lookupRole rest k

/-- In-place `load_state_dict`: overwrite the parameters of role `k` where
present, leaving the collection's structure unchanged. -/
def setRole : List (String × ℕ) → String → ℕ → List (String × ℕ)
  | [], _, _ => []
  | p :: rest, k, v => (if p.1 = k then (p.1, v) else p) :: setRole rest k v

/-- One iteration of the loop at train.py lines 138-141: load role `m`
from the record when it is present in both the record and the collection,
otherwise leave the collection untouched. -/
def loadRoleStep (ck : Checkpoint) (md : List (String × ℕ)) (m : String) :
    List (String × ℕ) :=
  match lookupRole ck.model m, lookupRole md m with
  | some p, some _ => setRole md m p
  | _, _ => md

/-- Embeds `load_checkpoint` (train.py lines 134-142): `"G"` is loaded
unconditionally (`model["G"].load_state_dict(state_dict["model"]["G"])`
raises `KeyError` when `"G"` is missing on either side), then each of
`"D"`, `"C"`, `"SPKRADV"` is loaded only when present in both the record
and the collection; returns the updated collection and the record's
`"steps"`. -/
def load_checkpoint (model : List (String × ℕ)) (ck : Checkpoint) :
    Except String (List (String × ℕ) × ℤ) :=
  match lookupRole model "G", lookupRole ck.model "G" with
  | some _, some pG =>
    let model := setRole model "G" pG
    let model := ["D", "C", "SPKRADV"].foldl (loadRoleStep ck) model
    Except.ok (model, ck.steps)
  | _, _ => Except.error "KeyError"

/-- Embeds the entry point `main` (train.py lines 145-227) as a trace of
its phases, in source order: argument parsing (lines 147-157), then the
device chosen from CUDA availability at line 158 and asserted to be
`"cuda"` at line 159 — before any configuration, data or model is loaded
— then the configuration load (line 162), the scp/feature loading, the
model construction and the trainer run, each recorded as a trace entry.
`flag` is the `--flag` argument; no later phase inspects the device
again, so the phases after the assertion are summarised by their names
only. -/
def main_trace (flag : String) (cuda_ok : Bool) : List String × Except String Unit :=
  let trace := ["parse_args"]
  let device := if cuda_ok then "cuda" else "cpu"
  if device = "cuda" then
    (trace ++ ["load_yaml", "open_scpdir", "get_model", "TrainerWrapper.run " ++ flag],
      Except.ok ())
  else
    (trace, Except.error "AssertionError: ERROR: Do not accept CPU training.")

/-! ## Helper lemmas -/

theorem dget_dset_self (l : Acc) (k : String) (v : GVal) : dget (dset l k v) k = v := by
  simp [dget, dset]

theorem dget_dset_ne (l : Acc) (k k' : String) (v : GVal) (h : k ≠ k') :
    dget (dset l k v) k' = dget l k' := by
  simp [dget, dset, h]

theorem append_data (p q : String) : (p ++ q).data = p.data ++ q.data := by
  cases p; cases q; rfl

theorem append_ne_short (p q t : String) (h₂ : 2 ≤ p.data.length)
    (h₁ : t.data.length ≤ 1) : p ++ q ≠ t := by
  intro he
  have hd := congrArg (fun s => s.data.length) he
  simp only [append_data, List.length_append] at hd
  omega

theorem append_ne_append (p q s t : String) (i : ℕ) (hip : i < p.data.length)
    (hiq : i < q.data.length) (hne : p.data[i]? ≠ q.data[i]?) : p ++ s ≠ q ++ t := by
  intro he
  have hd : p.data ++ s.data = q.data ++ t.data := by
    rw [← append_data, ← append_data, he]
  apply hne
  calc p.data[i]? = (p.data ++ s.data)[i]? := by rw [List.getElem?_append, if_pos hip]
    _ = (q.data ++ t.data)[i]? := by rw [hd]
    _ = q.data[i]? := by rw [List.getElem?_append, if_pos hiq]

theorem advKey_ne_G (c : ℕ) (io : Branch) : advKey c io ≠ "G" :=
  append_ne_short _ _ _ (by decide) (by decide)

theorem advKey_ne_D (c : ℕ) (io : Branch) : advKey c io ≠ "D" :=
  append_ne_short _ _ _ (by decide) (by decide)

theorem acganAdvKey_ne_G (c : ℕ) (io : Branch) : acganAdvKey c io ≠ "G" :=
  append_ne_short _ _ _ (by decide) (by decide)

theorem advKey_ne_acganAdvKey (c c' : ℕ) (io io' : Branch) :
    advKey c io ≠ acganAdvKey c' io' :=
  append_ne_append _ _ _ _ 3 (by decide) (by decide) (by decide)

theorem ceKey_ne_D (k : SampleKey) (c : ℕ) : ceKey k c ≠ "D" :=
  append_ne_short _ _ _ (by decide) (by decide)

theorem realKey_ne_D (c : ℕ) : realKey c ≠ "D" :=
  append_ne_short _ _ _ (by decide) (by decide)

theorem fakeKey_ne_D (c : ℕ) : fakeKey c ≠ "D" :=
  append_ne_short _ _ _ (by decide) (by decide)

theorem fakeKey_ne_realKey (c c' : ℕ) : fakeKey c ≠ realKey c' :=
  append_ne_append _ _ _ _ 2 (by decide) (by decide) (by decide)

/-! ## Claims about `crank/bin/train.py` -/

/-- Claim C5: in `update_G` the optimizer step for `"G"` is taken exactly
when the phase is `"train"` and `stop_generator` is off; in `update_D` the
step for `"D"` is taken exactly when the phase is `"train"`, independently
of `stop_generator`; in both methods the loss accumulator is computed and
returned regardless (it does not depend on `stop_generator`, and for
`update_D` not on the phase either). -/
theorem C5_step_gating (tr : Trainer) (b : Batch) (l : Acc) (phase : String)
    (choice : ℕ → FakeKind) (sg : Bool) :
    ((update_G tr b l phase).2 = true ↔ phase = "train" ∧ tr.stop_generator = false)
    ∧ ((update_D tr b l phase choice).2 = true ↔ phase = "train")
    ∧ (update_G tr b l phase).1 = (update_G { tr with stop_generator := sg } b l phase).1
    ∧ (update_D tr b l phase choice).1 = (update_D tr b l "dev" choice).1 := by
  refine ⟨?_, ?_, rfl, rfl⟩
  · simp [update_G]
  · simp [update_D]

/-- Claim C10: `main` chooses the torch device from CUDA availability and
asserts it is `"cuda"` before loading any configuration, data or model:
with CUDA unavailable the trace stops at argument parsing with the
assertion error, for every `--flag` value; with CUDA available the run
proceeds. -/
theorem C10_device_assert (flag : String) :
    main_trace flag false
      = (["parse_args"], Except.error "AssertionError: ERROR: Do not accept CPU training.")
    ∧ (main_trace flag true).2 = Except.ok ()
    ∧ "load_yaml" ∉ (main_trace flag false).1 := by
  refine ⟨rfl, rfl, by simp [main_trace]⟩

/-- Claim C8: for every configuration whose `trainer_type` reaches the
discriminator construction but whose `gan_type` is not `"lsgan"`, the
local `output_channels` is never assigned and `get_model` fails with an
unbound-local error instead of returning a model collection. -/
theorem C8_output_channels_unbound (conf : NetConf) (s : ℕ)
    (ht : conf.trainer_type = "lsgan" ∨ conf.trainer_type = "cyclegan" ∨
      conf.trainer_type = "stargan")
    (hg : conf.gan_type ≠ "lsgan") :
    get_model_D conf s = Except.error "UnboundLocalError: output_channels" := by
  unfold get_model_D build_discriminator
  rw [if_pos ht, if_neg hg]
  cases hac : conf.acgan_flag <;> simp [Except.map]

/-- Witness for C8 at a concrete configuration. -/
theorem C8_witness :
    (("cyclegan" : String) = "lsgan" ∨ ("cyclegan" : String) = "cyclegan" ∨
        ("cyclegan" : String) = "stargan")
    ∧ ("wgan" : String) ≠ "lsgan"
    ∧ get_model_D ⟨"cyclegan", "wgan", false, false, false, false, false, 8, 10, 3, 4, 2, 0⟩ 5
      = Except.error "UnboundLocalError: output_channels" :=
  ⟨by decide, by decide,
    C8_output_channels_unbound ⟨"cyclegan", "wgan", false, false, false, false, false, 8, 10, 3, 4, 2, 0⟩ 5
      (by decide) (by decide)⟩

/-- Claim C9: in the non-residual discriminator branch the `layers`
argument handed to the constructor is the literal string
`"n_discriminator_stacks"` repeated `n_discriminator_layers` times (a
list, via Python list repetition), not an integer layer count. -/
theorem C9_layers_list (conf : NetConf) (s : ℕ) (d : DSpec)
    (hres : conf.use_residual_network = false)
    (hok : build_discriminator conf s = Except.ok d) :
    (∃ i o k, d = DSpec.plain i o k
        (List.replicate conf.n_discriminator_layers "n_discriminator_stacks"))
    ∧ (List.replicate conf.n_discriminator_layers "n_discriminator_stacks").length
        = conf.n_discriminator_layers := by
  refine ⟨?_, List.length_replicate _ _⟩
  unfold build_discriminator at hok
  by_cases hg : conf.gan_type = "lsgan" <;>
    cases hac : conf.acgan_flag <;>
      simp [hg, hac, hres] at hok <;>
    exact ⟨_, _, _, hok.symm⟩

/-- Witness for C9 at a concrete configuration. -/
theorem C9_witness :
    (false = false)
    ∧ build_discriminator ⟨"cyclegan", "lsgan", false, false, false, false, false, 8, 10, 3, 4, 2, 0⟩ 5
        = Except.ok (DSpec.plain 10 1 3 (List.replicate 4 "n_discriminator_stacks"))
    ∧ ((∃ i o k, DSpec.plain 10 1 3 (List.replicate 4 "n_discriminator_stacks")
          = DSpec.plain i o k (List.replicate 4 "n_discriminator_stacks"))
      ∧ (List.replicate 4 ("n_discriminator_stacks" : String)).length = 4) :=
  ⟨rfl, rfl,
    C9_layers_list ⟨"cyclegan", "lsgan", false, false, false, false, false, 8, 10, 3, 4, 2, 0⟩ 5
      (DSpec.plain 10 1 3 (List.replicate 4 "n_discriminator_stacks")) rfl rfl⟩

theorem lookupRole_setRole_self (l : List (String × ℕ)) (k : String) (v : ℕ) :
    lookupRole (setRole l k v) k = (lookupRole l k).map fun _ => v := by
  induction l with
  | nil => rfl
  | cons p rest ih =>
    by_cases h : p.1 = k <;> simp [setRole, lookupRole, h, ih]

theorem lookupRole_setRole_ne (l : List (String × ℕ)) (k k' : String) (v : ℕ)
    (h : k ≠ k') : lookupRole (setRole l k v) k' = lookupRole l k' := by
  induction l with
  | nil => rfl
  | cons p rest ih =>
    by_cases hp : p.1 = k
    · simp [setRole, lookupRole, hp, h, ih]
    · simp [setRole, lookupRole, hp, ih]

theorem lookupRole_loadRoleStep_ne (ck : Checkpoint) (md : List (String × ℕ))
    (m r : String) (h : m ≠ r) :
    lookupRole (loadRoleStep ck md m) r = lookupRole md r := by
  unfold loadRoleStep
  rcases lookupRole ck.model m with _ | p <;> rcases lookupRole md m with _ | q <;>
    simp [lookupRole_setRole_ne _ _ _ _ h]

theorem lookupRole_loadRoleStep_self (ck : Checkpoint) (md : List (String × ℕ))
    (m : String) :
    lookupRole (loadRoleStep ck md m) m
    = match lookupRole ck.model m, lookupRole md m with
      | some p, some _ => some p
      | _, _ => lookupRole md m := by
  unfold loadRoleStep
  rcases lookupRole ck.model m with _ | p <;> rcases hm : lookupRole md m with _ | q <;>
    simp [lookupRole_setRole_self, hm]

theorem lookupRole_loadRole_foldl (ck : Checkpoint) (ms : List String)
    (md : List (String × ℕ)) (r : String) (hnd : ms.Nodup) :
    lookupRole (ms.foldl (loadRoleStep ck) md) r
    = if r ∈ ms then
        (match lookupRole ck.model r, lookupRole md r with
         | some p, some _ => some p
         | _, _ => lookupRole md r)
      else lookupRole md r := by
  induction ms generalizing md with
  | nil => simp
  | cons m ms ih =>
    rw [List.foldl_cons]
    obtain ⟨hm, hnd'⟩ := List.nodup_cons.mp hnd
    by_cases hr : r = m
    · subst hr
      rw [ih _ hnd', if_neg hm, if_pos (List.mem_cons_self _ _)]
      exact lookupRole_loadRoleStep_self ck md r
    · rw [ih _ hnd', lookupRole_loadRoleStep_ne ck md m r fun he => hr he.symm]
      by_cases hin : r ∈ ms
      · rw [if_pos hin, if_pos (List.mem_cons_of_mem _ hin)]
      · rw [if_neg hin, if_neg (by simp [hr, hin])]

/-- Counterexample to claim C7 as stated: with role `"G"` absent from the
checkpoint record, `load_checkpoint` raises `KeyError` instead of skipping
the role non-fatally as the claim asserts. -/
theorem C7_counterexample :
    load_checkpoint [("G", 1), ("D", 2)] ⟨[("D", 5)], 3⟩ = Except.error "KeyError" := rfl

/-- Claim C7 (amended): `load_checkpoint` loads `"G"` unconditionally — it
fails with `KeyError` when `"G"` is missing from the collection or the
record — while the roles `"D"`, `"C"`, `"SPKRADV"` are each loaded exactly
when present in both sides and skipped otherwise without failing; all
other roles are left unchanged, and the record's `"steps"` value is
returned. -/
theorem C7_load_checkpoint (model : List (String × ℕ)) (ck : Checkpoint) (pG pG' : ℕ)
    (hm : lookupRole model "G" = some pG') (hc : lookupRole ck.model "G" = some pG) :
    ∃ res, load_checkpoint model ck = Except.ok (res, ck.steps)
    ∧ lookupRole res "G" = some pG
    ∧ (∀ m, m ∈ (["D", "C", "SPKRADV"] : List String) →
        lookupRole res m
        = match lookupRole ck.model m, lookupRole model m with
          | some p, some _ => some p
          | _, _ => lookupRole model m)
    ∧ (∀ r, r ∉ (["G", "D", "C", "SPKRADV"] : List String) →
        lookupRole res r = lookupRole model r) := by
  refine ⟨["D", "C", "SPKRADV"].foldl (loadRoleStep ck) (setRole model "G" pG),
    ?_, ?_, ?_, ?_⟩
  · unfold load_checkpoint
    rw [hm, hc]
  · rw [lookupRole_loadRole_foldl _ _ _ _ (by decide), if_neg (by decide),
      lookupRole_setRole_self, hm]
    rfl
  · intro m hmem
    rw [lookupRole_loadRole_foldl _ _ _ _ (by decide), if_pos hmem]
    have : ("G" : String) ≠ m := by
      rcases (by simpa using hmem : m = "D" ∨ m = "C" ∨ m = "SPKRADV") with rfl | rfl | rfl <;>
        decide
    rw [lookupRole_setRole_ne _ _ _ _ this]
  · intro r hr
    have h1 : r ∉ (["D", "C", "SPKRADV"] : List String) := fun hin => hr (by simp_all)
    have h2 : ("G" : String) ≠ r := fun he => hr (by simp [← he])
    rw [lookupRole_loadRole_foldl _ _ _ _ (by decide), if_neg h1,
      lookupRole_setRole_ne _ _ _ _ h2]

/-- Witness for C7 at concrete inputs: `"G"` and `"D"` present on both
sides are loaded, the extra role `"X"` is untouched. -/
theorem C7_witness :
    lookupRole [("G", 1), ("D", 2), ("X", 7)] "G" = some 1
    ∧ lookupRole [("G", 9), ("D", 5)] "G" = some 9
    ∧ ∃ res, load_checkpoint [("G", 1), ("D", 2), ("X", 7)] ⟨[("G", 9), ("D", 5)], 4⟩
          = Except.ok (res, (4 : ℤ))
      ∧ lookupRole res "G" = some 9
      ∧ (∀ m, m ∈ (["D", "C", "SPKRADV"] : List String) →
          lookupRole res m
          = match lookupRole [("G", 9), ("D", 5)] m,
              lookupRole [("G", 1), ("D", 2), ("X", 7)] m with
            | some p, some _ => some p
            | _, _ => lookupRole [("G", 1), ("D", 2), ("X", 7)] m)
      ∧ (∀ r, r ∉ (["G", "D", "C", "SPKRADV"] : List String) →
          lookupRole res r = lookupRole [("G", 1), ("D", 2), ("X", 7)] r) :=
  ⟨rfl, rfl,
    C7_load_checkpoint [("G", 1), ("D", 2), ("X", 7)] ⟨[("G", 9), ("D", 5)], 4⟩ 9 1 rfl rfl⟩

/-! ## Lemmas on the discriminator loss -/

theorem gadd_assoc (a b c : GVal) : gadd (gadd a b) c = gadd a (gadd b c) := by
  simp [gadd, add_assoc, Bool.or_assoc]

theorem gadd_zero (a : GVal) : gadd a ⟨0, false⟩ = a := by
  simp [gadd]

theorem zero_gadd (a : GVal) : gadd ⟨0, false⟩ a = a := by
  simp [gadd]

theorem discSample_g (tr : Trainer) (b : Batch) (outs : ℕ → CycOut) (k : SampleKey) :
    (discSample tr b outs k).gradG = false := by
  cases k <;> rfl

theorem discSamplePost_g (tr : Trainer) (b : Batch) (outs : ℕ → CycOut) (k : SampleKey) :
    (discSamplePost tr b outs k).gradG = false := by
  unfold discSamplePost
  split <;> simp [discSample_g]

theorem ceVal_g (tr : Trainer) (b : Batch) (outs : ℕ → CycOut) (k : SampleKey) :
    (ceVal tr b outs k).g = false := by
  cases k <;> simp [ceVal, discSample_g]

theorem realVal_g (tr : Trainer) (b : Batch) (outs : ℕ → CycOut) :
    (realVal tr b outs).g = false := by
  simp [realVal, discSamplePost_g]

theorem fakeVal_g (tr : Trainer) (b : Batch) (outs : ℕ → CycOut) (fk : FakeKind) :
    (fakeVal tr b outs fk).g = false := by
  cases fk <;> simp [fakeVal, discSamplePost_g]

theorem discContrib_g (tr : Trainer) (b : Batch) (outs : ℕ → CycOut)
    (choice : ℕ → FakeKind) (c : ℕ) : (discContrib tr b outs choice c).g = false := by
  cases hA : tr.conf.acgan_flag <;> cases hR : tr.conf.use_real_only_acgan <;>
    simp [discContrib, hA, hR, gadd, gscale, ceVal_g, realVal_g, fakeVal_g]

theorem dget_discCeStep_D (tr : Trainer) (b : Batch) (outs : ℕ → CycOut) (c : ℕ)
    (k : SampleKey) (l : Acc) :
    dget (discCeStep tr b outs c k l) "D"
    = if tr.conf.use_real_only_acgan ∧ k = SampleKey.org_fake then dget l "D"
      else gadd (dget l "D") (gscale tr.conf.alpha_acgan (ceVal tr b outs k)) := by
  simp only [discCeStep]
  by_cases h : tr.conf.use_real_only_acgan ∧ k = SampleKey.org_fake
  · rw [if_pos h, if_pos h, dget_dset_ne _ _ _ _ (ceKey_ne_D k c)]
  · rw [if_neg h, if_neg h, dget_dset_self, dget_dset_ne _ _ _ _ (ceKey_ne_D k c)]

theorem dget_discCycleStep_D (tr : Trainer) (b : Batch) (outs : ℕ → CycOut)
    (choice : ℕ → FakeKind) (c : ℕ) (l : Acc) :
    dget (discCycleStep tr b outs choice c l) "D"
    = gadd (dget l "D") (discContrib tr b outs choice c) := by
  simp only [discCycleStep]
  rw [dget_dset_self, dget_dset_ne _ _ _ _ (fakeKey_ne_D c),
    dget_dset_ne _ _ _ _ (realKey_ne_D c)]
  cases hA : tr.conf.acgan_flag
  · simp [discContrib, hA, zero_gadd]
  · cases hR : tr.conf.use_real_only_acgan <;>
      simp [discContrib, hA, hR, List.foldl_cons, List.foldl_nil, dget_discCeStep_D,
        gadd_assoc, gadd_zero, zero_gadd]

theorem dget_discFold_D (tr : Trainer) (b : Batch) (outs : ℕ → CycOut)
    (choice : ℕ → FakeKind) (cs : List ℕ) (l : Acc) :
    dget (cs.foldl (fun a c => discCycleStep tr b outs choice c a) l) "D"
    = cs.foldl (fun g c => gadd g (discContrib tr b outs choice c)) (dget l "D") := by
  induction cs generalizing l with
  | nil => rfl
  | cons c cs ih => simp [List.foldl_cons, ih, dget_discCycleStep_D]

theorem dget_calcD_D (tr : Trainer) (b : Batch) (outs : ℕ → CycOut)
    (choice : ℕ → FakeKind) (l : Acc) :
    dget (calculate_cycle_discriminator_loss tr b outs choice l) "D"
    = (List.range tr.conf.n_cycles).foldl
        (fun g c => gadd g (discContrib tr b outs choice c)) (dget l "D") :=
  dget_discFold_D tr b outs choice (List.range tr.conf.n_cycles) l

theorem foldl_gadd_g (f : ℕ → GVal) (hf : ∀ c, (f c).g = false) (cs : List ℕ)
    (g₀ : GVal) : (cs.foldl (fun g c => gadd g (f c)) g₀).g = g₀.g := by
  induction cs generalizing g₀ with
  | nil => rfl
  | cons c cs ih => rw [List.foldl_cons, ih]; simp [gadd, hf]

theorem foldl_gadd_v (f : ℕ → GVal) (cs : List ℕ) (g₀ : GVal) :
    (cs.foldl (fun g c => gadd g (f c)) g₀).v = g₀.v + (cs.map fun c => (f c).v).sum := by
  induction cs generalizing g₀ with
  | nil => simp
  | cons c cs ih => rw [List.foldl_cons, ih]; simp [gadd]; ring

theorem discSample_outs0 (tr : Trainer) (b : Batch) (outs outs' : ℕ → CycOut)
    (h : outs 0 = outs' 0) (k : SampleKey) :
    discSample tr b outs k = discSample tr b outs' k := by
  cases k <;> simp [discSample, h]

theorem discCycleStep_outs0 (tr : Trainer) (b : Batch) (choice : ℕ → FakeKind) (c : ℕ)
    (l : Acc) (outs outs' : ℕ → CycOut) (h : outs 0 = outs' 0) :
    discCycleStep tr b outs choice c l = discCycleStep tr b outs' choice c l := by
  have hs : ∀ k, discSample tr b outs k = discSample tr b outs' k :=
    discSample_outs0 tr b outs outs' h
  simp only [discCycleStep, discCeStep, ceVal, realVal, fakeVal, discSamplePost,
    List.foldl_cons, List.foldl_nil, hs]

theorem foldl_congr_mem {α β : Type _} (cs : List α) (f g : β → α → β)
    (h : ∀ a ∈ cs, ∀ x, f x a = g x a) (init : β) : cs.foldl f init = cs.foldl g init := by
  induction cs generalizing init with
  | nil => rfl
  | cons c cs ih =>
    rw [List.foldl_cons, List.foldl_cons, h c (List.mem_cons_self _ _)]
    exact ih (fun a ha x => h a (List.mem_cons_of_mem _ ha) x) _

theorem calcD_outs0 (tr : Trainer) (b : Batch) (choice : ℕ → FakeKind) (l : Acc)
    (outs outs' : ℕ → CycOut) (h : outs 0 = outs' 0) :
    calculate_cycle_discriminator_loss tr b outs choice l
    = calculate_cycle_discriminator_loss tr b outs' choice l := by
  unfold calculate_cycle_discriminator_loss
  exact foldl_congr_mem _ _ _
    (fun c _ x => discCycleStep_outs0 tr b choice c x outs outs' h) l

theorem discCycleStep_choice (tr : Trainer) (b : Batch) (outs : ℕ → CycOut) (c : ℕ)
    (l : Acc) (ch ch' : ℕ → FakeKind) (h : ch c = ch' c) :
    discCycleStep tr b outs ch c l = discCycleStep tr b outs ch' c l := by
  simp only [discCycleStep, h]

theorem calcD_choice_prefix (tr : Trainer) (b : Batch) (outs : ℕ → CycOut) (l : Acc)
    (ch ch' : ℕ → FakeKind) (h : ∀ c < tr.conf.n_cycles, ch c = ch' c) :
    calculate_cycle_discriminator_loss tr b outs ch l
    = calculate_cycle_discriminator_loss tr b outs ch' l := by
  unfold calculate_cycle_discriminator_loss
  exact foldl_congr_mem _ _ _
    (fun c hc x => discCycleStep_choice tr b outs c x ch ch' (h c (List.mem_range.mp hc))) l

theorem dget_discCycleStep_realKey (tr : Trainer) (b : Batch) (outs : ℕ → CycOut)
    (choice : ℕ → FakeKind) (c : ℕ) (l : Acc) :
    dget (discCycleStep tr b outs choice c l) (realKey c) = realVal tr b outs := by
  simp only [discCycleStep]
  rw [dget_dset_ne _ _ _ _ (Ne.symm (realKey_ne_D c)),
    dget_dset_ne _ _ _ _ (fakeKey_ne_realKey c c), dget_dset_self]

theorem dget_discCycleStep_fakeKey (tr : Trainer) (b : Batch) (outs : ℕ → CycOut)
    (choice : ℕ → FakeKind) (c : ℕ) (l : Acc) :
    dget (discCycleStep tr b outs choice c l) (fakeKey c)
    = fakeVal tr b outs (choice c) := by
  simp only [discCycleStep]
  rw [dget_dset_ne _ _ _ _ (Ne.symm (fakeKey_ne_D c)), dget_dset_self]

/-! ## Claims C2, C4, C6 -/

theorem dget_discCycleStep_other (tr : Trainer) (b : Batch) (outs : ℕ → CycOut)
    (choice : ℕ → FakeKind) (c : ℕ) (l : Acc) (k : String)
    (h1 : tr.conf.acgan_flag = false) (hD : k ≠ "D") (hr : k ≠ realKey c)
    (hf : k ≠ fakeKey c) :
    dget (discCycleStep tr b outs choice c l) k = dget l k := by
  simp only [discCycleStep, h1, Bool.false_eq_true, if_false]
  rw [dget_dset_ne _ _ _ _ (Ne.symm hD), dget_dset_ne _ _ _ _ (Ne.symm hf),
    dget_dset_ne _ _ _ _ (Ne.symm hr)]

/-- Counterexample to claim C2 as stated: the sample sets are not taken
from "that cycle's outputs" — at cycle index 1 the fake sample still comes
from `outputs[0]`; concretely, the recorded `D_fake_1cyc` value is the one
computed from cycle 0's converted decode (`4`), not the value the claim
predicts from cycle 1's converted decode (`0`). -/
theorem C2_counterexample :
    dget (calculate_cycle_discriminator_loss exTrainerC exBatch1 exOutsA
        (fun _ => FakeKind.cv_fake) [("D", ⟨0, false⟩)]) (fakeKey 1)
      = ⟨4, false⟩
    ∧ ⟨mse (maskSelF (dApply exTrainerC exBatch1 ((exOutsA 1).cv.decoded.detach)
          "cv").frames exBatch1.decoder_mask) 0, false⟩
      = (⟨0, false⟩ : GVal)
    ∧ (⟨4, false⟩ : GVal) ≠ ⟨0, false⟩ := by
  refine ⟨?_, ?_, ?_⟩
  · have hr : calculate_cycle_discriminator_loss exTrainerC exBatch1 exOutsA
        (fun _ => FakeKind.cv_fake) [("D", ⟨0, false⟩)]
        = discCycleStep exTrainerC exBatch1 exOutsA (fun _ => FakeKind.cv_fake) 1
            (discCycleStep exTrainerC exBatch1 exOutsA (fun _ => FakeKind.cv_fake) 0
              [("D", ⟨0, false⟩)]) := rfl
    rw [hr, dget_discCycleStep_fakeKey]
    norm_num [fakeVal, FakeKind.sample, discSamplePost, discSample, dApply, Tens.detach,
      exTrainerC, exTrainer, exConf, exOutsA, exCyc, exBatch1, maskSelF, mse,
      List.filter, List.zip, List.zipWith]
  · norm_num [dApply, Tens.detach, exTrainerC, exTrainer, exConf, exOutsA, exCyc,
      exBatch1, maskSelF, mse, List.filter, List.zip, List.zipWith]
  · intro h
    have hv := congrArg GVal.v h
    norm_num at hv

/-- Claim C2 (amended): `update_D` scores, for every cycle index, the real
input features and the detached first-cycle (`outputs[0]`) org-branch and
cv-branch decodes through the discriminator — the result depends on the
cycle outputs only through `outputs[0]` — applies the ones-target squared
error to the real sample masked by `decoder_mask` and the zeros-target
squared error to the chosen fake sample, and the `"D"` total is computed
entirely from detached generator outputs: its gradient reachability flag
is exactly that of the incoming accumulator entry. -/
theorem C2_update_D (tr : Trainer) (b : Batch) (l : Acc) (phase : String)
    (choice : ℕ → FakeKind) (outs outs' : ℕ → CycOut) (h0 : outs 0 = outs' 0) :
    (update_D tr b l phase choice).1
      = calculate_cycle_discriminator_loss tr b (tr.cycle_forward b) choice l
    ∧ calculate_cycle_discriminator_loss tr b outs choice l
      = calculate_cycle_discriminator_loss tr b outs' choice l
    ∧ (dget (calculate_cycle_discriminator_loss tr b outs choice l) "D").g
      = (dget l "D").g
    ∧ (∀ c l₂, dget (discCycleStep tr b outs choice c l₂) (realKey c)
          = ⟨mse (maskSelF (discSamplePost tr b outs SampleKey.real).frames
              b.decoder_mask) 1, false⟩
        ∧ dget (discCycleStep tr b outs choice c l₂) (fakeKey c)
          = ⟨mse (maskSelF (discSamplePost tr b outs (choice c).sample).frames
              (match choice c with
               | FakeKind.org_fake => b.cycle_decoder_mask
               | FakeKind.cv_fake => b.decoder_mask)) 0, false⟩) := by
  refine ⟨rfl, calcD_outs0 tr b choice l outs outs' h0, ?_, ?_⟩
  · rw [dget_calcD_D]
    exact foldl_gadd_g _ (discContrib_g tr b outs choice) _ _
  · intro c l₂
    constructor
    · rw [dget_discCycleStep_realKey]
      simp [realVal, discSamplePost_g]
    · rw [dget_discCycleStep_fakeKey]
      rcases hc : choice c with _ | _ <;>
        simp [hc, fakeVal, FakeKind.sample, discSamplePost_g]

/-- Witness for C2 at concrete inputs: two output streams sharing their
first cycle yield the same discriminator loss. -/
theorem C2_witness :
    exOutsA 0 = exOutsB 0
    ∧ calculate_cycle_discriminator_loss exTrainerC exBatch1 exOutsA
        (fun _ => FakeKind.cv_fake) [("D", ⟨0, false⟩)]
      = calculate_cycle_discriminator_loss exTrainerC exBatch1 exOutsB
        (fun _ => FakeKind.cv_fake) [("D", ⟨0, false⟩)] :=
  ⟨rfl, (C2_update_D exTrainerC exBatch1 [("D", ⟨0, false⟩)] "train"
    (fun _ => FakeKind.cv_fake) exOutsA exOutsB rfl).2.1⟩

/-- Counterexample to claim C4 as stated: the fake branch is not drawn
once per step — in a single two-cycle call the cycle-0 fake term comes
from the `"org_fake"` branch while the cycle-1 fake term comes from the
`"cv_fake"` branch, and the two recorded values (`0` and `4`) differ, so
no single per-step draw produces this accumulator. -/
theorem C4_counterexample :
    dget (calculate_cycle_discriminator_loss exTrainerC exBatch1 exOutsA chW
        [("D", ⟨0, false⟩)]) (fakeKey 0)
      = fakeVal exTrainerC exBatch1 exOutsA FakeKind.org_fake
    ∧ dget (calculate_cycle_discriminator_loss exTrainerC exBatch1 exOutsA chW
        [("D", ⟨0, false⟩)]) (fakeKey 1)
      = fakeVal exTrainerC exBatch1 exOutsA FakeKind.cv_fake
    ∧ fakeVal exTrainerC exBatch1 exOutsA FakeKind.org_fake = ⟨0, false⟩
    ∧ fakeVal exTrainerC exBatch1 exOutsA FakeKind.cv_fake = ⟨4, false⟩
    ∧ (⟨0, false⟩ : GVal) ≠ ⟨4, false⟩ := by
  have hr : calculate_cycle_discriminator_loss exTrainerC exBatch1 exOutsA chW
      [("D", ⟨0, false⟩)]
      = discCycleStep exTrainerC exBatch1 exOutsA chW 1
          (discCycleStep exTrainerC exBatch1 exOutsA chW 0 [("D", ⟨0, false⟩)]) := rfl
  refine ⟨?_, ?_, ?_, ?_, ?_⟩
  · rw [hr, dget_discCycleStep_other exTrainerC exBatch1 exOutsA chW 1 _ (fakeKey 0)
      rfl (by decide) (by decide) (by decide), dget_discCycleStep_fakeKey]
    rfl
  · rw [hr, dget_discCycleStep_fakeKey]
    rfl
  · norm_num [fakeVal, FakeKind.sample, discSamplePost, discSample, dApply, Tens.detach,
      exTrainerC, exTrainer, exConf, exOutsA, exCyc, exBatch1, maskSelF, mse,
      List.filter, List.zip, List.zipWith]
  · norm_num [fakeVal, FakeKind.sample, discSamplePost, discSample, dApply, Tens.detach,
      exTrainerC, exTrainer, exConf, exOutsA, exCyc, exBatch1, maskSelF, mse,
      List.filter, List.zip, List.zipWith]
  · intro h
    have hv := congrArg GVal.v h
    norm_num at hv

/-- Claim C4 (amended): the fake branch is drawn uniformly at random once
per cycle of each step (the call consumes one draw per cycle index below
`n_cycles`, and only those); each cycle's fake term uses that cycle's
draw, masked by `cycle_decoder_mask` when `"org_fake"` was drawn and by
`decoder_mask` when `"cv_fake"` was drawn. -/
theorem C4_fake_choice (tr : Trainer) (b : Batch) (outs : ℕ → CycOut) (l : Acc)
    (ch ch' : ℕ → FakeKind) (h : ∀ c < tr.conf.n_cycles, ch c = ch' c) :
    (∀ c l₂, dget (discCycleStep tr b outs ch c l₂) (fakeKey c)
        = ⟨mse (maskSelF (discSamplePost tr b outs (ch c).sample).frames
            (match ch c with
             | FakeKind.org_fake => b.cycle_decoder_mask
             | FakeKind.cv_fake => b.decoder_mask)) 0, false⟩)
    ∧ calculate_cycle_discriminator_loss tr b outs ch l
      = calculate_cycle_discriminator_loss tr b outs ch' l := by
  constructor
  · intro c l₂
    rw [dget_discCycleStep_fakeKey]
    rcases hc : ch c with _ | _ <;>
      simp [hc, fakeVal, FakeKind.sample, discSamplePost_g]
  · exact calcD_choice_prefix tr b outs l ch ch' h

/-- Witness for C4 at concrete inputs: two draw streams agreeing on both
cycle indices of a two-cycle configuration give equal accumulators. -/
theorem C4_witness :
    (∀ c < exTrainerC.conf.n_cycles, chW c = chW' c)
    ∧ calculate_cycle_discriminator_loss exTrainerC exBatch1 exOutsA chW [("D", ⟨0, false⟩)]
      = calculate_cycle_discriminator_loss exTrainerC exBatch1 exOutsA chW'
        [("D", ⟨0, false⟩)] :=
  ⟨by decide,
    (C4_fake_choice exTrainerC exBatch1 exOutsA [("D", ⟨0, false⟩)] chW chW'
      (by decide)).2⟩

/-- Claim C6: with `acgan_flag` and `use_real_only_acgan` both enabled,
the `"org_fake"` cross-entropy term is still computed and written into the
accumulator under its own key — the acgan iteration for `"org_fake"`
reduces to exactly that dict write — while the `"D"` total accumulates,
per cycle, only the `"real"` and `"cv_fake"` cross-entropy terms weighted
by `alpha["acgan"]`, beside the weighted fake and real squared errors. -/
theorem C6_real_only_acgan (tr : Trainer) (b : Batch) (outs : ℕ → CycOut)
    (choice : ℕ → FakeKind) (l : Acc)
    (hA : tr.conf.acgan_flag = true) (hR : tr.conf.use_real_only_acgan = true) :
    (∀ c l₂, discCeStep tr b outs c SampleKey.org_fake l₂
        = dset l₂ (ceKey SampleKey.org_fake c) (ceVal tr b outs SampleKey.org_fake))
    ∧ (dget (calculate_cycle_discriminator_loss tr b outs choice l) "D").v
      = (dget l "D").v
        + ((List.range tr.conf.n_cycles).map fun c =>
            tr.conf.alpha_acgan * (ceVal tr b outs SampleKey.real).v
            + tr.conf.alpha_acgan * (ceVal tr b outs SampleKey.cv_fake).v
            + tr.conf.alpha_fake * (fakeVal tr b outs (choice c)).v
            + tr.conf.alpha_real * (realVal tr b outs).v).sum := by
  constructor
  · intro c l₂
    simp [discCeStep, hR]
  · rw [dget_calcD_D, foldl_gadd_v]
    have hv : ∀ c, (discContrib tr b outs choice c).v
        = tr.conf.alpha_acgan * (ceVal tr b outs SampleKey.real).v
          + tr.conf.alpha_acgan * (ceVal tr b outs SampleKey.cv_fake).v
          + tr.conf.alpha_fake * (fakeVal tr b outs (choice c)).v
          + tr.conf.alpha_real * (realVal tr b outs).v := by
      intro c
      simp [discContrib, hA, hR, gadd, gscale]
      ring
    simp only [hv]

/-- Witness for C6 at concrete inputs: the `"org_fake"` acgan iteration of
the concrete acgan trainer is exactly the dict write of its cross-entropy
term. -/
theorem C6_witness :
    exTrainerA.conf.acgan_flag = true
    ∧ exTrainerA.conf.use_real_only_acgan = true
    ∧ (∀ c l₂, discCeStep exTrainerA exBatch1 exOutsA c SampleKey.org_fake l₂
        = dset l₂ (ceKey SampleKey.org_fake c)
            (ceVal exTrainerA exBatch1 exOutsA SampleKey.org_fake)) :=
  ⟨rfl, rfl,
    (C6_real_only_acgan exTrainerA exBatch1 exOutsA (fun _ => FakeKind.cv_fake) []
      rfl rfl).1⟩

/-! ## Claims C3, C1 -/

theorem dget_advStep_advKey (tr : Trainer) (b : Batch) (outs : ℕ → CycOut) (c : ℕ)
    (io : Branch) (l : Acc) :
    dget (advStep tr b outs c io l) (advKey c io)
    = (if tr.conf.acgan_flag then
        ⟨mse (maskSel (splitVal (dApply tr b ((outs c).branch io).decoded "cv").frames)
          b.decoder_mask) 1, ((outs c).branch io).decoded.gradG⟩
       else
        ⟨mse (dApply tr b ((outs c).branch io).decoded "cv").frames.flatten 1,
          ((outs c).branch io).decoded.gradG⟩) := by
  cases hA : tr.conf.acgan_flag <;>
    simp only [advStep, hA, Bool.false_eq_true, if_false, eq_self_iff_true, if_true] <;>
    rw [dget_dset_ne _ _ _ _ (Ne.symm (advKey_ne_G c io)), dget_dset_self] <;>
    rfl

theorem dget_advStep_acganKey (tr : Trainer) (b : Batch) (outs : ℕ → CycOut) (c : ℕ)
    (io : Branch) (l : Acc) :
    dget (advStep tr b outs c io l) (acganAdvKey c io)
    = (if tr.conf.acgan_flag then
        ⟨tr.ceF (splitCls (dApply tr b ((outs c).branch io).decoded "cv").frames) (b.h io),
          ((outs c).branch io).decoded.gradG⟩
       else dget l (acganAdvKey c io)) := by
  cases hA : tr.conf.acgan_flag <;>
    simp only [advStep, hA, Bool.false_eq_true, if_false, eq_self_iff_true, if_true]
  · rw [dget_dset_ne _ _ _ _ (Ne.symm (acganAdvKey_ne_G c io)),
      dget_dset_ne _ _ _ _ (advKey_ne_acganAdvKey c c io io)]
  · rw [dget_dset_ne _ _ _ _ (Ne.symm (acganAdvKey_ne_G c io)),
      dget_dset_ne _ _ _ _ (advKey_ne_acganAdvKey c c io io),
      dget_dset_ne _ _ _ _ (Ne.symm (acganAdvKey_ne_G c io)), dget_dset_self]
    rfl

theorem dget_advStep_other (tr : Trainer) (b : Batch) (outs : ℕ → CycOut) (c : ℕ)
    (io : Branch) (l : Acc) (k : String) (hG : k ≠ "G") (ha : k ≠ advKey c io)
    (hc : k ≠ acganAdvKey c io) :
    dget (advStep tr b outs c io l) k = dget l k := by
  cases hA : tr.conf.acgan_flag <;>
    simp only [advStep, hA, Bool.false_eq_true, if_false, eq_self_iff_true, if_true]
  · rw [dget_dset_ne _ _ _ _ (Ne.symm hG), dget_dset_ne _ _ _ _ (Ne.symm ha)]
  · rw [dget_dset_ne _ _ _ _ (Ne.symm hG), dget_dset_ne _ _ _ _ (Ne.symm ha),
      dget_dset_ne _ _ _ _ (Ne.symm hG), dget_dset_ne _ _ _ _ (Ne.symm hc)]

/-- Counterexample to claim C3 as stated: with `acgan_flag` disabled the
adversarial squared error is **not** masked by `decoder_mask` — on a batch
whose second frame is padding, the recorded `D_adv_0cyc_org` value is
`1/2` (the padding frame contributes `(0-1)^2`), while the
`decoder_mask`-restricted squared error is `0`. -/
theorem C3_counterexample :
    dget (calculate_cycleadv_loss (exTrainer exConf1 exOutsC) exBatch2 exOutsC
        [("G", ⟨0, false⟩)]) (advKey 0 Branch.org)
      = ⟨1 / 2, true⟩
    ∧ mse (maskSel (splitVal (dApply (exTrainer exConf1 exOutsC) exBatch2
          ((exOutsC 0).branch Branch.org).decoded "cv").frames) exBatch2.decoder_mask) 1
      = 0
    ∧ ((1 : ℚ) / 2) ≠ 0 := by
  have hr : calculate_cycleadv_loss (exTrainer exConf1 exOutsC) exBatch2 exOutsC
      [("G", ⟨0, false⟩)]
      = advStep (exTrainer exConf1 exOutsC) exBatch2 exOutsC 0 Branch.cv
          (advStep (exTrainer exConf1 exOutsC) exBatch2 exOutsC 0 Branch.org
            [("G", ⟨0, false⟩)]) := rfl
  refine ⟨?_, ?_, by norm_num⟩
  · rw [hr, dget_advStep_other (exTrainer exConf1 exOutsC) exBatch2 exOutsC 0 Branch.cv _
      (advKey 0 Branch.org) (by decide) (by decide) (by decide), dget_advStep_advKey]
    norm_num [exTrainer, exConf1, exOutsC, exCycF, CycOut.branch, dApply, mse,
      List.filter, List.zip, List.zipWith]
  · norm_num [exTrainer, exConf1, exOutsC, exCycF, CycOut.branch, dApply, mse, maskSel,
      splitVal, exBatch2, List.filter, List.zip, List.zipWith]

/-- Claim C3 (amended): in the cyclic adversarial loss the ones-target
squared error is restricted to the `decoder_mask`-selected frames only
when `acgan_flag` is enabled; with `acgan_flag` disabled it ranges over
all frames of the discriminator output, padding included; and the acgan
cross-entropy, when computed, is applied to the full unmasked classifier
channels (and its key is not written at all otherwise). -/
theorem C3_masking (tr : Trainer) (b : Batch) (outs : ℕ → CycOut) (c : ℕ) (io : Branch)
    (l : Acc) :
    dget (advStep tr b outs c io l) (advKey c io)
      = (if tr.conf.acgan_flag then
          ⟨mse (maskSel (splitVal (dApply tr b ((outs c).branch io).decoded "cv").frames)
            b.decoder_mask) 1, ((outs c).branch io).decoded.gradG⟩
         else
          ⟨mse (dApply tr b ((outs c).branch io).decoded "cv").frames.flatten 1,
            ((outs c).branch io).decoded.gradG⟩)
    ∧ dget (advStep tr b outs c io l) (acganAdvKey c io)
      = (if tr.conf.acgan_flag then
          ⟨tr.ceF (splitCls (dApply tr b ((outs c).branch io).decoded "cv").frames)
            (b.h io), ((outs c).branch io).decoded.gradG⟩
         else dget l (acganAdvKey c io)) :=
  ⟨dget_advStep_advKey tr b outs c io l, dget_advStep_acganKey tr b outs c io l⟩

/-- Counterexample to claim C1 as stated: the adversarial accumulator keys
produced by `calculate_cycleadv_loss` are not named `{c}cyc_{io}_D_adv` —
`"0cyc_org_D_adv"` is absent while the actual key `"D_adv_0cyc_org"` is
present. -/
theorem C1_counterexample :
    "0cyc_org_D_adv" ∉ (calculate_cycleadv_loss exTrainerC exBatch1 exOutsA
        [("G", ⟨0, false⟩)]).map Prod.fst
    ∧ "D_adv_0cyc_org" ∈ (calculate_cycleadv_loss exTrainerC exBatch1 exOutsA
        [("G", ⟨0, false⟩)]).map Prod.fst := by
  constructor <;> decide

/-- Claim C1 (amended): with `acgan_flag` off and two cycles, one
`calculate_cycleadv_loss` call starting from an accumulator holding only
`"G"` populates exactly the keys `"G"` and `D_adv_{c}cyc_{io}` for each
cycle and branch (no ACGAN-prefixed keys); each `D_adv_{c}cyc_{io}` entry
is the squared error against ones of the discriminator run on
`outputs[c][io]["decoded"]` under the `"cv"` conditioning label, and
`loss["G"]` grows by `alpha["adv"]` times the sum of the four adversarial
terms. -/
theorem C1_cycleadv_keys (tr : Trainer) (b : Batch) (outs : ℕ → CycOut) (g₀ : GVal)
    (hA : tr.conf.acgan_flag = false) (hn : tr.conf.n_cycles = 2) :
    (∀ k, k ∈ (calculate_cycleadv_loss tr b outs [("G", g₀)]).map Prod.fst
        ↔ k ∈ ["G", "D_adv_0cyc_org", "D_adv_0cyc_cv", "D_adv_1cyc_org", "D_adv_1cyc_cv"])
    ∧ (∀ c, c < 2 → ∀ io, dget (calculate_cycleadv_loss tr b outs [("G", g₀)]) (advKey c io)
        = ⟨mse (dApply tr b ((outs c).branch io).decoded "cv").frames.flatten 1,
            ((outs c).branch io).decoded.gradG⟩)
    ∧ (dget (calculate_cycleadv_loss tr b outs [("G", g₀)]) "G").v
      = g₀.v + tr.conf.alpha_adv *
          (mse (dApply tr b ((outs 0).branch Branch.org).decoded "cv").frames.flatten 1
          + mse (dApply tr b ((outs 0).branch Branch.cv).decoded "cv").frames.flatten 1
          + mse (dApply tr b ((outs 1).branch Branch.org).decoded "cv").frames.flatten 1
          + mse (dApply tr b ((outs 1).branch Branch.cv).decoded "cv").frames.flatten 1) := by
  have hr : calculate_cycleadv_loss tr b outs [("G", g₀)]
      = advStep tr b outs 1 Branch.cv (advStep tr b outs 1 Branch.org
          (advStep tr b outs 0 Branch.cv (advStep tr b outs 0 Branch.org [("G", g₀)]))) := by
    unfold calculate_cycleadv_loss
    rw [hn]
    rfl
  refine ⟨?_, ?_, ?_⟩
  · intro k
    rw [hr]
    simp only [advStep, hA, Bool.false_eq_true, if_false, dset, List.map_cons,
      List.map_nil, List.mem_cons, List.not_mem_nil, or_false,
      show advKey 0 Branch.org = "D_adv_0cyc_org" from rfl,
      show advKey 0 Branch.cv = "D_adv_0cyc_cv" from rfl,
      show advKey 1 Branch.org = "D_adv_1cyc_org" from rfl,
      show advKey 1 Branch.cv = "D_adv_1cyc_cv" from rfl]
    tauto
  · intro c hc io
    rw [hr]
    interval_cases c <;> cases io
    · rw [dget_advStep_other tr b outs 1 Branch.cv _ (advKey 0 Branch.org)
          (by decide) (by decide) (by decide),
        dget_advStep_other tr b outs 1 Branch.org _ (advKey 0 Branch.org)
          (by decide) (by decide) (by decide),
        dget_advStep_other tr b outs 0 Branch.cv _ (advKey 0 Branch.org)
          (by decide) (by decide) (by decide),
        dget_advStep_advKey, if_neg (by simp [hA])]
    · rw [dget_advStep_other tr b outs 1 Branch.cv _ (advKey 0 Branch.cv)
          (by decide) (by decide) (by decide),
        dget_advStep_other tr b outs 1 Branch.org _ (advKey 0 Branch.cv)
          (by decide) (by decide) (by decide),
        dget_advStep_advKey, if_neg (by simp [hA])]
    · rw [dget_advStep_other tr b outs 1 Branch.cv _ (advKey 1 Branch.org)
          (by decide) (by decide) (by decide),
        dget_advStep_advKey, if_neg (by simp [hA])]
    · rw [dget_advStep_advKey, if_neg (by simp [hA])]
  · rw [hr]
    simp only [advStep, hA, Bool.false_eq_true, if_false]
    rw [dget_dset_self, dget_dset_ne _ _ _ _ (advKey_ne_G 1 Branch.cv), dget_dset_self,
      dget_dset_ne _ _ _ _ (advKey_ne_G 1 Branch.org), dget_dset_self,
      dget_dset_ne _ _ _ _ (advKey_ne_G 0 Branch.cv), dget_dset_self,
      dget_dset_ne _ _ _ _ (advKey_ne_G 0 Branch.org)]
    simp [dget, gadd, gscale]
    ring

/-- Witness for C1 at a concrete no-acgan two-cycle trainer: the populated
key set is exactly the five amended names. -/
theorem C1_witness :
    exTrainerC.conf.acgan_flag = false
    ∧ exTrainerC.conf.n_cycles = 2
    ∧ (∀ k, k ∈ (calculate_cycleadv_loss exTrainerC exBatch1 exOutsA
          [("G", ⟨0, false⟩)]).map Prod.fst
        ↔ k ∈ ["G", "D_adv_0cyc_org", "D_adv_0cyc_cv", "D_adv_1cyc_org", "D_adv_1cyc_cv"]) :=
  ⟨rfl, rfl,
    (C1_cycleadv_keys exTrainerC exBatch1 exOutsA ⟨0, false⟩ rfl rfl).1⟩

end Crank
